import Mathlib

/-!
Verification of the transducer core of bergsans/transduce-example (src/fp.js).

The embedding models JavaScript numbers on the integer inputs used by the
repository as `Int`, arrays as `List`, and functions that throw a `TypeError`
as `Option`-returning functions (`none` = the call fails).  Reducers are
curried binary functions `A → E → A`; reducer transformers are endofunctions
on reducers.
-/

namespace FP

/-- isEven from src/fp.js: `x % 2 === 0`.  For modulus 2 the JavaScript
remainder is zero exactly when `Int.emod` is, for every integer. -/
def isEven (x : Int) : Bool := x % 2 == 0

/-- add from src/fp.js: `(x, y) => x + y`. -/
def add (x y : Int) : Int := x + y

/-- add1 from src/fp.js: `(x) => x + 1`. -/
def add1 (x : Int) : Int := x + 1

/-- multBy10 from src/fp.js: `(x) => x * 10`. -/
def multBy10 (x : Int) : Int := x * 10

/-- compose from src/fp.js:
`(...fns) => fns.reduceRight((f, g) => (...args) => g(f(...args)))`.
`reduceRight` with no initial value throws a `TypeError` on an empty array
(modelled by `none`); on a nonempty list it nests the first-listed function
outermost: `compose [t1, ..., tn] = some (t1 ∘ ... ∘ tn)`.  The repository
only ever composes functions of one argument, so the variadic `...args` is
modelled by a single argument. -/
def compose {α : Type} : List (α → α) → Option (α → α)
  | [] => none
  | [f] => some f
  | f :: rest => (compose rest).map (fun g => fun x => f (g x))

/-- The loop inside composeFast (src/fp.js lines 10-12):
`for (let i = fns.length - 1; i > 1; i--) { result = fns[i](result); }`.
`loopDesc fns i r` applies `fns[i]`, `fns[i-1]`, ..., `fns[2]` to `r` in
descending index order, stopping as soon as the index is not `> 1`.
Inside composeFast the index stays in range, so the `getD` default is
never used there. -/
def loopDesc {α : Type} (fns : List (α → α)) : Nat → α → α
  | 0, r => r
  | 1, r => r
  | i + 2, r => loopDesc fns (i + 1) ((fns.getD (i + 2) id) r)

/-- composeFast from src/fp.js lines 8-14:
`(...fns) => (...args) => { let result = fns[0](...args);
  for (let i = fns.length - 1; i > 1; i--) { result = fns[i](result); }
  return result; }`.
On an empty list every application of the returned closure calls the
undefined `fns[0]` and throws, so the empty case is surfaced as `none`.
Note the loop condition `i > 1` never applies `fns[1]`. -/
def composeFast {α : Type} : List (α → α) → Option (α → α)
  | [] => none
  | f0 :: rest =>
    some (fun x => loopDesc (f0 :: rest) ((f0 :: rest).length - 1) (f0 x))

/-- foldFast from src/fp.js lines 50-55:
`(fn, initial) => (xs) => { for (let i = 0; i < xs.length; i++)
  { initial = fn(initial, xs[i]); } return initial; }` —
the loop reassigns the accumulator once per element, left to right. -/
def foldFast {A E : Type} (fn : A → E → A) : A → List E → A
  | init, [] => init
  | init, x :: xs => foldFast fn (fn init x) xs

/-- rMap from src/fp.js line 57:
`(fn) => (reducer) => (acc, x) => reducer(acc, fn(x))`. -/
def rMap {A E E2 : Type} (fn : E → E2) (reducer : A → E2 → A) : A → E → A :=
  fun acc x => reducer acc (fn x)

/-- rFilter from src/fp.js lines 58-60:
`(predicate) => (reducer) => (acc, x) => (predicate(x) ? reducer(acc, x) : acc)`. -/
def rFilter {A E : Type} (predicate : E → Bool) (reducer : A → E → A) :
    A → E → A :=
  fun acc x => if predicate x then reducer acc x else acc

/-- concat from src/fp.js lines 62-65: `(acc, x) => { acc.push(x); return acc; }`,
as a value: the list with `x` appended. -/
def concat {E : Type} (acc : List E) (x : E) : List E := acc ++ [x]

/-- Independent reference computation for the fusion property: map `f` over
every element, discard elements failing `p`, then sum the remainder. -/
def mapFilterSumRef (f : Int → Int) (p : Int → Bool) (xs : List Int) : Int :=
  ((xs.map f).filter p).foldl add 0

/-- Instrumented downstream reducer: the accumulator additionally carries the
number of times the wrapped reducer has been invoked. -/
def countCalls {A E : Type} (r : A → E → A) : A × Nat → E → A × Nat :=
  fun s x => (r s.1 x, s.2 + 1)

/-- Instrumented element transform: each application of `f` is tagged with an
evaluation count of one. -/
def countEvalF {E E2 : Type} (f : E → E2) : E → E2 × Nat := fun x => (f x, 1)

/-- Downstream reducer absorbing the evaluation counts produced by
`countEvalF`: it adds the tag of the incoming element to the running tally. -/
def tallyDown {A E2 : Type} (r : A → E2 → A) : A × Nat → E2 × Nat → A × Nat :=
  fun s y => (r s.1 y.1, s.2 + y.2)

/-- Call-depth cost model of rMap: an instrumented reducer returns its value
together with the number of nested reducer frames its invocation used; the
wrapper adds one frame on top of the downstream invocation. -/
def rMapD {A E E2 : Type} (fn : E → E2) (r : A → E2 → A × Nat) :
    A → E → A × Nat :=
  fun acc x => ((r acc (fn x)).1, (r acc (fn x)).2 + 1)

/-- Call-depth cost model of rFilter: one frame on top of the downstream
invocation when the predicate holds, a single frame otherwise. -/
def rFilterD {A E : Type} (p : E → Bool) (r : A → E → A × Nat) :
    A → E → A × Nat :=
  fun acc x => if p x then ((r acc x).1, (r acc x).2 + 1) else (acc, 1)

/-- Call-depth cost model of add: a single frame. -/
def addD : Int → Int → Int × Nat := fun a x => (a + x, 1)

/-- Call-depth cost model of foldFast: the loop threads the accumulator and
records the maximum reducer call depth used by any iteration; the loop itself
adds no frame per element, matching the iterative source. -/
def foldFastD {A E : Type} (fn : A → E → A × Nat) : A × Nat → List E → A × Nat
  | s, [] => s
  | s, x :: xs => foldFastD fn ((fn s.1 x).1, max s.2 (fn s.1 x).2) xs

end FP

namespace FP

/-- foldFast is the standard left fold. -/
theorem foldFast_eq_foldl {A E : Type} (fn : A → E → A) (init : A)
    (xs : List E) : foldFast fn init xs = List.foldl fn init xs := by
  induction xs generalizing init with
  | nil => rfl
  | cons x xs ih => simpa [foldFast] using ih (fn init x)

/-- C9: foldFast traverses the input exactly once, left to right, applying the
reducer at each step: it equals the standard left fold seeded with the initial
accumulator; in particular it returns the initial accumulator unchanged on the
empty sequence. -/
theorem foldFast_traversal {A E : Type} (fn : A → E → A) (init : A)
    (xs : List E) :
    foldFast fn init xs = List.foldl fn init xs ∧
    foldFast fn init ([] : List E) = init :=
  ⟨foldFast_eq_foldl fn init xs, rfl⟩

/-- C6: rMap satisfies `mapStep(f)(r)(acc, x) = r(acc, f(x))`, and under the
evaluation-counting instrumentation exactly one evaluation of the transform is
recorded per element. -/
theorem rMap_contract {A E E2 : Type} (f : E → E2) (r : A → E2 → A)
    (acc : A) (x : E) :
    rMap f r acc x = r acc (f x) ∧
    rMap (countEvalF f) (tallyDown r) (acc, 0) x = (r acc (f x), 1) :=
  ⟨rfl, rfl⟩

/-- C5: rFilter satisfies `filterStep(p)(r)(acc, x) = p(x) ? r(acc, x) : acc`,
and when `p x` is false an invocation-counting downstream reducer records zero
calls: the downstream reducer is never invoked. -/
theorem rFilter_contract {A E : Type} (p : E → Bool) (r : A → E → A)
    (acc : A) (x : E) :
    rFilter p r acc x = (if p x then r acc x else acc) ∧
    (p x = false → ∀ c : Nat, rFilter p (countCalls r) (acc, c) x = (acc, c)) := by
  refine ⟨rfl, fun hp c => ?_⟩
  simp [rFilter, hp]

/-- Witness for C5 at `p = isEven`, `x = 1`, `r = add`, `acc = 0`: the
predicate fails and the counting reducer records zero downstream calls. -/
theorem rFilter_contract_witness :
    isEven 1 = false ∧
      rFilter isEven (countCalls add) ((0 : Int), 0) 1 = ((0 : Int), 0) :=
  ⟨by decide, (rFilter_contract isEven add 0 1).2 (by decide) 0⟩

/-- Counterexample for C7: composing the empty list of transformers does not
yield an identity transformer — both composition utilities of src/fp.js fail
on an empty list (compose calls reduceRight with no initial value, composeFast
calls the undefined `fns[0]`), modelled by `none`. -/
theorem compose_empty_fails :
    compose ([] : List ((Int → Int → Int) → (Int → Int → Int))) = none ∧
    composeFast ([] : List ((Int → Int → Int) → (Int → Int → Int))) = none :=
  ⟨rfl, rfl⟩

/-- C7 amended: composing zero transformers fails rather than yielding the
identity; the identity behaviour holds from one transformer on — composing the
singleton `[t]` returns `t` unchanged, under either composition utility. -/
theorem compose_singleton_identity {A E : Type}
    (t : (A → E → A) → (A → E → A)) (r : A → E → A) :
    compose [t] = some t ∧
      ∃ c, composeFast [t] = some c ∧ c r = t r :=
  ⟨rfl, _, rfl, rfl⟩

/-- C2: for a nonempty list of reducer transformers, compose nests them with
the first-listed transformer outermost: applying the composed transformer to a
downstream reducer r gives `t1 (t2 (... (tn r)))`. -/
theorem compose_nested_order {A E : Type}
    (ts : List ((A → E → A) → (A → E → A))) (r : A → E → A) (h : ts ≠ []) :
    ∃ c, compose ts = some c ∧ c r = ts.foldr (fun t k => t k) r := by
  induction ts with
  | nil => exact absurd rfl h
  | cons t rest ih =>
    cases rest with
    | nil => exact ⟨t, rfl, rfl⟩
    | cons t2 rest2 =>
      obtain ⟨c2, hc2, hcr⟩ := ih (by simp)
      refine ⟨fun x => t (c2 x), ?_, ?_⟩
      · have hdef : compose (t :: t2 :: rest2)
            = (compose (t2 :: rest2)).map (fun g => fun x => t (g x)) := rfl
        rw [hdef, hc2]
        rfl
      · show t (c2 r) = List.foldr (fun t k => t k) r (t :: t2 :: rest2)
        rw [hcr]
        rfl

/-- Witness for C2 at the two-stage pipeline `[rMap multBy10, rFilter isEven]`
and the sum reducer: the composed transformer nests rMap outermost. -/
theorem compose_nested_order_witness :
    ([rMap multBy10, rFilter isEven] ≠
        ([] : List ((Int → Int → Int) → (Int → Int → Int)))) ∧
      ∃ c, compose [rMap multBy10, rFilter isEven] = some c ∧
        c add = rMap multBy10 (rFilter isEven add) := by
  refine ⟨by simp, ?_⟩
  have h := compose_nested_order [rMap multBy10, rFilter isEven] add (by simp)
  simpa using h

/-- The descending loop of composeFast applies `fns[2..i+1]` in descending
index order, which is a right fold of function application over that slice. -/
theorem loopDesc_spec {α : Type} (fns : List (α → α)) :
    ∀ (i : Nat) (y : α), i + 2 ≤ fns.length →
      loopDesc fns (i + 1) y = ((fns.drop 2).take i).foldr (fun h r => h r) y := by
  intro i
  induction i with
  | zero => intro y _; rfl
  | succ i ih =>
    intro y hle
    have hi2 : i + 2 < fns.length := by omega
    have hid : i < (fns.drop 2).length := by
      rw [List.length_drop]; omega
    have hstep : loopDesc fns (i + 1 + 1) y
        = loopDesc fns (i + 1) ((fns.getD (i + 2) id) y) := rfl
    rw [hstep, ih _ (by omega), List.take_succ,
      List.getElem?_eq_getElem hid, List.foldr_append]
    have hg : (fns.drop 2)[i] = fns.getD (i + 2) id := by
      rw [List.getD_eq_getElem fns id hi2]
      rw [List.getElem_drop fns]
      congr 1
      omega
    rw [hg]
    rfl

/-- composeFast on a nonempty list applies the head `fns[0]` first and then
`fns[i]` for `i` from the last index down to 2, skipping `fns[1]`: the result
is a right fold of application of `rest.drop 1` over `f0 x`. -/
theorem composeFast_cons_eq {α : Type} (f0 : α → α) (rest : List (α → α))
    (x : α) :
    ∃ c, composeFast (f0 :: rest) = some c ∧
      c x = (rest.drop 1).foldr (fun h r => h r) (f0 x) := by
  refine ⟨_, rfl, ?_⟩
  show loopDesc (f0 :: rest) ((f0 :: rest).length - 1) (f0 x) = _
  cases rest with
  | nil => rfl
  | cons r1 rest2 =>
    have h : rest2.length + 2 ≤ (f0 :: r1 :: rest2).length := by simp
    have hs := loopDesc_spec (f0 :: r1 :: rest2) rest2.length (f0 x) h
    simpa using hs

/-- C3: composeFast never applies the second-listed function: for two
functions the composite is just the first; in general the head is applied
first and then the tail elements from index 2 up in descending order, skipping
index 1; in particular the benchmark pipeline
`composeFast(rFilter(isEven), rMap(multBy10))(concat)` equals
`rFilter(isEven)(concat)`, with the map stage dropped. -/
theorem composeFast_drops_second :
    (∀ (α : Type) (f g : α → α) (x : α),
        ∃ c, composeFast [f, g] = some c ∧ c x = f x) ∧
    (∀ (α : Type) (f0 : α → α) (rest : List (α → α)) (x : α),
        ∃ c, composeFast (f0 :: rest) = some c ∧
          c x = (rest.drop 1).foldr (fun h r => h r) (f0 x)) ∧
    (∃ c, composeFast [rFilter isEven, rMap multBy10] = some c ∧
        ∀ (acc : List Int) (x : Int),
          c concat acc x = rFilter isEven concat acc x) := by
  refine ⟨?_, ?_, ⟨_, rfl, fun acc x => rfl⟩⟩
  · intro α f g x
    exact ⟨_, rfl, rfl⟩
  · intro α f0 rest x
    exact composeFast_cons_eq f0 rest x

/-- C1 (failing input): for xs = [2], f = add1, p = isEven, the composeFast
pipeline `[rMap add1, rFilter isEven]` applied to the sum reducer and folded
from 0 returns 3 (the filter stage is dropped), while the reference
map-filter-sum computation returns 0; the correctly nesting compose gives the
reference value on the same input. -/
theorem composeFast_pipeline_diverges :
    (∃ c, composeFast [rMap add1, rFilter isEven] = some c ∧
        foldFast (c add) 0 [(2 : Int)] = 3) ∧
    mapFilterSumRef add1 isEven [(2 : Int)] = 0 ∧
    (∃ c, compose [rMap add1, rFilter isEven] = some c ∧
        foldFast (c add) 0 [(2 : Int)] = 0) := by
  refine ⟨⟨_, rfl, by decide⟩, by decide, ⟨_, rfl, by decide⟩⟩

/-- C8: for input `[1,2,3,4,5]`, the pipeline `[mapStep(x => x*10),
filterStep(isEven)]` composed onto the sum reducer and folded from 0 returns
150 — with either composition utility of src/fp.js. -/
theorem concrete_scenario_150 :
    (∃ c, compose [rMap multBy10, rFilter isEven] = some c ∧
      foldFast (c add) 0 [(1 : Int), 2, 3, 4, 5] = 150) ∧
    (∃ c, composeFast [rMap multBy10, rFilter isEven] = some c ∧
      foldFast (c add) 0 [(1 : Int), 2, 3, 4, 5] = 150) := by
  constructor
  · exact ⟨_, rfl, by decide⟩
  · exact ⟨_, rfl, by decide⟩

/-- C10: folding `[1,2,3]` through `[filterStep(isEven), mapStep(multBy10)]`
gives 20, while `[mapStep(multBy10), filterStep(isEven)]` gives 60: pipeline
order changes the result. -/
theorem order_sensitivity :
    ∃ c1 c2, compose [rFilter isEven, rMap multBy10] = some c1 ∧
      compose [rMap multBy10, rFilter isEven] = some c2 ∧
      foldFast (c1 add) 0 [(1 : Int), 2, 3] = 20 ∧
      foldFast (c2 add) 0 [(1 : Int), 2, 3] = 60 ∧ (20 : Int) ≠ 60 := by
  exact ⟨_, _, rfl, rfl, by decide, by decide, by decide⟩

/-- The correctly nesting pipeline rMap-then-rFilter over the sum reducer
computes, from any initial accumulator, the left sum of the filtered map. -/
theorem foldFast_mapFilter_add (f : Int → Int) (p : Int → Bool) :
    ∀ (xs : List Int) (init : Int),
      foldFast (rMap f (rFilter p add)) init xs =
        ((xs.map f).filter p).foldl add init := by
  intro xs
  induction xs with
  | nil => intro init; rfl
  | cons x xs ih =>
    intro init
    by_cases h : p (f x)
    · simp only [foldFast, rMap, rFilter, List.map_cons, List.filter_cons, h,
        if_true, List.foldl_cons]
      exact ih (add init (f x))
    · simp only [foldFast, rMap, rFilter, List.map_cons, List.filter_cons, h,
        if_false, Bool.false_eq_true]
      exact ih init

/-- Fusion for the reduceRight composer: folding once through the pipeline
composed by compose from `[rMap f, rFilter p]` applied to the sum reducer
equals the independent map-filter-sum reference, for every transform,
predicate and input sequence. -/
theorem fusion_compose (f : Int → Int) (p : Int → Bool) (xs : List Int) :
    ∃ c, compose [rMap f, rFilter p] = some c ∧
      foldFast (c add) 0 xs = mapFilterSumRef f p xs := by
  refine ⟨_, rfl, ?_⟩
  show foldFast (rMap f (rFilter p add)) 0 xs = mapFilterSumRef f p xs
  exact foldFast_mapFilter_add f p xs 0

/-- In the call-depth cost model, the iterative fold never exceeds the frame
bound of the reducer it drives, for every input sequence: the auxiliary depth
is independent of input length. -/
theorem foldFastD_depth_le {A E : Type} (fn : A → E → A × Nat) (b : Nat)
    (hb : ∀ acc x, (fn acc x).2 ≤ b) :
    ∀ (xs : List E) (acc : A) (d : Nat), d ≤ b →
      (foldFastD fn (acc, d) xs).2 ≤ b := by
  intro xs
  induction xs with
  | nil => intro acc d hd; exact hd
  | cons x xs ih =>
    intro acc d hd
    exact ih _ _ (max_le hd (hb acc x))

/-- The value component of the instrumented fold agrees with foldFast whenever
the instrumented reducer's value component agrees with the plain reducer. -/
theorem foldFastD_fst {A E : Type} (fn : A → E → A × Nat) (g : A → E → A)
    (hfg : ∀ acc x, (fn acc x).1 = g acc x) :
    ∀ (xs : List E) (acc : A) (d : Nat),
      (foldFastD fn (acc, d) xs).1 = foldFast g acc xs := by
  intro xs
  induction xs with
  | nil => intro acc d; rfl
  | cons x xs ih =>
    intro acc d
    simp only [foldFastD, foldFast, hfg]
    exact ih (g acc x) _

/-- Closed form of the benchmark pipeline map ×10, filter even, sum over the
initial segment `[0, 1, ..., n-1]`: every mapped element is even, so the fold
returns the initial accumulator plus `10 * (0 + 1 + ... + (n-1)) = 5n(n-1)`. -/
theorem foldFast_pipe_range :
    ∀ (n : Nat) (init : Int),
      foldFast (rMap multBy10 (rFilter isEven add)) init
          ((List.range n).map Int.ofNat) =
        init + ((5 * n * (n - 1) : Nat) : Int) := by
  intro n
  induction n with
  | zero => intro init; simp [foldFast]
  | succ n ih =>
    intro init
    rw [List.range_succ, List.map_append, foldFast_eq_foldl,
      List.foldl_append, ← foldFast_eq_foldl, ← foldFast_eq_foldl, ih]
    show rMap multBy10 (rFilter isEven add)
        (init + ((5 * n * (n - 1) : Nat) : Int)) (Int.ofNat n)
      = init + ((5 * (n + 1) * (n + 1 - 1) : Nat) : Int)
    have hcond : isEven (multBy10 (Int.ofNat n)) = true := by
      simp only [isEven, multBy10, beq_iff_eq]
      omega
    simp only [rMap, rFilter]
    rw [if_pos hcond]
    simp only [add, multBy10]
    have hcast : Int.ofNat n = (n : Int) := rfl
    rw [hcast]
    cases n with
    | zero => simp
    | succ m =>
      push_cast [Nat.succ_sub_one]
      ring

/-- C4: foldFast over the benchmark input of n ≥ 10,000,000 integers with the
map ×10, filter even, sum pipeline completes and returns the final accumulator
5n(n-1); in the call-depth cost model the auxiliary depth of the fold is
bounded by the reducer's own frame bound for every reducer, initial
accumulator and input sequence — independent of input length — and the
instrumented benchmark pipeline stays within 3 frames while computing the same
value as the plain fold. -/
theorem foldFast_stack_safe (n : Nat) (_hn : 10000000 ≤ n) :
    foldFast (rMap multBy10 (rFilter isEven add)) 0
        ((List.range n).map Int.ofNat) = ((5 * n * (n - 1) : Nat) : Int) ∧
    (∀ (A E : Type) (r : A → E → A × Nat) (b : Nat),
        (∀ acc x, (r acc x).2 ≤ b) →
        ∀ (init : A) (xs : List E), (foldFastD r (init, 0) xs).2 ≤ b) ∧
    (∀ (xs : List Int) (init : Int),
        (foldFastD (rMapD multBy10 (rFilterD isEven addD)) (init, 0) xs).1 =
          foldFast (rMap multBy10 (rFilter isEven add)) init xs ∧
        (foldFastD (rMapD multBy10 (rFilterD isEven addD)) (init, 0) xs).2 ≤ 3) := by
  refine ⟨?_, ?_, ?_⟩
  · have h := foldFast_pipe_range n 0
    simpa using h
  · intro A E r b hb init xs
    exact foldFastD_depth_le r b hb xs init 0 (Nat.zero_le b)
  · intro xs init
    constructor
    · refine foldFastD_fst _ _ (fun acc x => ?_) xs init 0
      by_cases h : isEven (multBy10 x) <;>
        simp [rMapD, rFilterD, addD, rMap, rFilter, add, h]
    · refine foldFastD_depth_le _ 3 (fun acc x => ?_) xs init 0 (Nat.zero_le 3)
      by_cases h : isEven (multBy10 x) <;> simp [rMapD, rFilterD, addD, h]

/-- Witness for C4 at n = 10,000,000: the bound holds and the fold returns
5 * 10000000 * 9999999. -/
theorem foldFast_stack_safe_witness :
    10000000 ≤ 10000000 ∧
      (foldFast (rMap multBy10 (rFilter isEven add)) 0
          ((List.range 10000000).map Int.ofNat) =
        ((5 * 10000000 * (10000000 - 1) : Nat) : Int) ∧
      (∀ (A E : Type) (r : A → E → A × Nat) (b : Nat),
          (∀ acc x, (r acc x).2 ≤ b) →
          ∀ (init : A) (xs : List E), (foldFastD r (init, 0) xs).2 ≤ b) ∧
      (∀ (xs : List Int) (init : Int),
          (foldFastD (rMapD multBy10 (rFilterD isEven addD)) (init, 0) xs).1 =
            foldFast (rMap multBy10 (rFilter isEven add)) init xs ∧
          (foldFastD (rMapD multBy10 (rFilterD isEven addD)) (init, 0) xs).2 ≤ 3)) :=
  ⟨by decide, foldFast_stack_safe 10000000 (by decide)⟩

end FP
